import Mathlib

/-!
Verification development for the rekognizer face-verification service.

Shallow embedding of the core decision pipeline:
  * `rekognizer/facenet.py`  — `Facenet.get_similarities` (the similarity engine);
  * `rekognizer/utils.py`    — `normalize_image`, `resize_image`;
  * `rekognizer/service.py`  — `RekognizerService.enroll_user`,
    `RekognizerHttpService._verify`, `RekognizerHttpService._identify`;
  * `rekognizer/entrypoints.py` — `CorsHttpRequestHandler.response_from_exception`.

External collaborators (image fetch + decode, the MTCNN face detector, the
remote Facenet embedding endpoint, the user-status RPC) are modelled as
oracle functions passed in as parameters: the embedding of an image URL is
whatever the oracle says, exactly as the Python code treats the HTTP
responses it receives.  Pixel values and embedding coordinates are modelled
as exact rationals (`ℚ`); the float statistics of `normalize_image`
(`np.std`, `np.sqrt`) live in `ℝ` via `Real.sqrt`.

Image URLs are abstracted to natural numbers: the code never inspects a URL,
it only hands it to the image-loading collaborator and copies it into result
records.
-/

/-- Exception taxonomy of the service.  `rekognizer/exceptions.py` declares
`NoFaceException`, `TooManyFacesException`, `UnknownPersonException` and
`UserDisabledException`; `BadRequest` comes from nameko and
`ValidationError` from marshmallow.  `Unexpected` stands for any exception
outside this taxonomy reaching the HTTP handler. -/
inductive Exc where
  | BadRequest
  | ValidationError
  | NoFace
  | TooManyFaces
  | UnknownPerson
  | UserDisabled
  | Unexpected
deriving DecidableEq, Repr

/-- One enrollment row (`rekognizer/models.py`): a stored reference embedding
together with the id of the user it belongs to.  The timestamp and
primary-key columns play no role in the decision pipeline. -/
structure Enrollment where
  embedding : List ℚ
  user_id : ℕ
deriving DecidableEq, Repr

/-- The record returned by the external `user_manager.get_user` RPC; the code
reads only `is_activated` (and forwards the rest opaquely). -/
structure User where
  id : ℕ
  is_activated : Bool
deriving DecidableEq, Repr

/-! ## facenet.py -/

/-- `THRESHOLD = 0.8` from `rekognizer/facenet.py`. -/
def THRESHOLD : ℚ := 0.8

/-- Squared Euclidean distance between two embeddings:
`np.sum(np.square(np.subtract(reference_embedding, embedding)))` from
`Facenet.get_similarities`. -/
def distSq (reference_embedding embedding : List ℚ) : ℚ :=
  (List.zipWith (fun a b => (a - b) ^ 2) reference_embedding embedding).sum

/-- `Facenet.get_similarities`: starts from `result = [True]`; when the batch
has more than one element it appends, for each later embedding, the test
`dist < THRESHOLD` where `dist = sqrt(distSq reference embedding)`.  Since
the threshold is positive and `distSq` is nonnegative,
`sqrt d < t ↔ d < t ^ 2`; the executable translation therefore compares the
squared distance against `THRESHOLD ^ 2` (the equivalence with the source
square-root comparison is proved in `get_similarities_spec`). -/
def get_similarities (embeddings : List (List ℚ)) : List Bool :=
  true ::
    (if 1 < embeddings.length then
      (embeddings.drop 1).map (fun embedding =>
        decide (distSq (embeddings.headD []) embedding < THRESHOLD ^ 2))
    else [])

/-! ## utils.py -/

/-- `np.mean(image)` over the flattened element list (all pixels and
channels). -/
def np_mean (image : List ℚ) : ℚ := image.sum / image.length

/-- Population variance, i.e. the square of `np.std(image)`: the mean of the
squared deviations from `np_mean`. -/
def np_var (image : List ℚ) : ℚ :=
  ((image.map (fun x => (x - np_mean image) ^ 2)).sum) / image.length

/-- `np.std(image)` as a real number. -/
noncomputable def np_std (image : List ℚ) : ℝ := Real.sqrt (np_var image)

/-- `std_adj = np.maximum(std, 1.0 / np.sqrt(image.size))` from
`normalize_image`; `image.size` is the total element count. -/
noncomputable def std_adj (image : List ℚ) : ℝ :=
  max (np_std image) (1 / Real.sqrt (image.length : ℝ))

/-- `normalize_image` from `rekognizer/utils.py`:
`y = np.multiply(np.subtract(image, mean), 1 / std_adj)` elementwise. -/
noncomputable def normalize_image (image : List ℚ) : List ℝ :=
  image.map (fun (p : ℚ) => ((p : ℝ) - (np_mean image : ℝ)) * (1 / std_adj image))

/-- Raster dimensions.  `resize_image` inspects only `image.shape[:2]`
(height then width); the pixel contents are transformed by the external
`cv2.resize`. -/
structure Img where
  height : ℕ
  width : ℕ
deriving DecidableEq, Repr

/-- `resize_image` from `rekognizer/utils.py`.  `cvResize` is the external
`cv2.resize(image, dim)` call, taking the target `dim = (width, height)`
pair in that order, as in the source.  With both targets `None` the input is
returned unchanged; with `width = None`, `r = height / float(h)` and
`dim = (int(w * r), height)`; otherwise `r = width / float(w)` and
`dim = (width, int(h * r))`.  The `int` truncation (Python) of the nonnegative
exact quotient is `Int.toNat ∘ Int.floor`. -/
def resize_image (cvResize : Img → ℕ × ℕ → Img) (image : Img)
    (width height : Option ℕ) : Img :=
  match width, height with
  | none, none => image
  | none, some ht =>
      cvResize image
        (Int.toNat ⌊(image.width : ℚ) * ((ht : ℚ) / (image.height : ℚ))⌋, ht)
  | some wd, _ =>
      cvResize image
        (wd, Int.toNat ⌊(image.height : ℚ) * ((wd : ℚ) / (image.width : ℚ))⌋)

/-! ## service.py — enrollment

`enroll_user` loops over the URLs; for each it runs the
load→detect→require-exactly-one-face→crop→normalize→embed pipeline and then
adds one `Enrollment` row inside a fresh committed session, before moving to
the next URL.  `detect url` is the number of faces the detector reports for
the image at `url` and `embed url` the embedding the Facenet endpoint
returns for its (single) cropped face.  The database is threaded through
explicitly as the list of persisted rows, in insertion order. -/

/-- Loop body of `RekognizerService.enroll_user`: processes the remaining
URLs against the rows persisted so far, returning the call outcome and the
final table contents. -/
def enroll_go (user_id : ℕ) (detect : ℕ → ℕ) (embed : ℕ → List ℚ) :
    List ℕ → List Enrollment → Except Exc Unit × List Enrollment
  | [], db => (Except.ok (), db)
  | url :: rest, db =>
    let faces_len := detect url
    if faces_len = 0 then (Except.error Exc.NoFace, db)
    else if 1 < faces_len then (Except.error Exc.TooManyFaces, db)
    else enroll_go user_id detect embed rest (db ++ [⟨embed url, user_id⟩])

/-- `RekognizerService.enroll_user` on an initial table `db`. -/
def enroll_user (user_id : ℕ) (detect : ℕ → ℕ) (embed : ℕ → List ℚ)
    (image_urls : List ℕ) (db : List Enrollment) :
    Except Exc Unit × List Enrollment :=
  enroll_go user_id detect embed image_urls db

/-! ## service.py — verification -/

/-- Terminal outcome of one image URL in a verify call. -/
inductive VerifyOutcome where
  | valid
  | noFace
  | tooManyFaces
  | notSamePerson
deriving DecidableEq, Repr

/-- One entry of the `_verify` result list: the dict
`{"image_url": ..., "valid": ..., "error": ...}` with the `valid`/`error`
fields fused into a single outcome tag. -/
structure VerifyEntry where
  image_url : ℕ
  outcome : VerifyOutcome
deriving DecidableEq, Repr

/-- First loop of `RekognizerHttpService._verify`: walks the URLs in order,
appending `NO_FACE` / `TOO_MANY_FACES` records to `result` and collecting
`(image_url, face-embedding)` pairs into `valid_images`.  The loop appends are rendered as cons onto the recursive tail, which preserves the
order of each of the two lists. -/
def verifyPass1 (detect : ℕ → ℕ) (embed : ℕ → List ℚ) :
    List ℕ → List VerifyEntry × List (ℕ × List ℚ)
  | [] => ([], [])
  | url :: rest =>
    let faces_len := detect url
    let acc := verifyPass1 detect embed rest
    if faces_len = 0 then (⟨url, VerifyOutcome.noFace⟩ :: acc.1, acc.2)
    else if 1 < faces_len then (⟨url, VerifyOutcome.tooManyFaces⟩ :: acc.1, acc.2)
    else (acc.1, (url, embed url) :: acc.2)

/-- `RekognizerHttpService._verify`: after the first pass, if any image
survived, the batch of valid faces is embedded in one call and
`Facenet.get_similarities` is run on those embeddings (the first valid image
acting as reference); the outcome of each valid image is appended to `result`
after all the first-pass rejection records. -/
def verify_impl (detect : ℕ → ℕ) (embed : ℕ → List ℚ)
    (image_urls : List ℕ) : List VerifyEntry :=
  let pass := verifyPass1 detect embed image_urls
  if 0 < pass.2.length then
    let similarities := get_similarities (pass.2.map Prod.snd)
    pass.1 ++ (pass.2.zip similarities).map (fun p =>
      if p.2 then ⟨p.1.1, VerifyOutcome.valid⟩
      else ⟨p.1.1, VerifyOutcome.notSamePerson⟩)
  else pass.1

/-! ## service.py — identification -/

/-- The Python expression `list.index(True)` on a boolean list: the first index holding
`true`, or `none` where Python raises `ValueError`. -/
def index_of_true : List Bool → Option ℕ
  | [] => none
  | b :: rest => if b then some 0 else (index_of_true rest).map (fun n => n + 1)

/-- `RekognizerHttpService._identify`, generic in the similarity engine
`sim` (instantiated with `Facenet.get_similarities` in `identify_impl`;
keeping it a parameter lets theorems state that certain failure paths never
consult it).  `faces_len` is the face count the detector reports,
`embedding` the Facenet embedding of its single cropped face, `enrollments`
the full table scan in stored order, and `get_user` the external
`user_manager.get_user` RPC.  The source builds
`np.insert(embeddings, 0, embedding, axis=0)` (query at index 0, then every
enrollment embedding in retrieval order), runs the similarity engine, pops
the index-0 self-match, and takes `similarities.index(True)`; a `ValueError`
from `.index` becomes `UnknownPersonException`. -/
def identifyWith (sim : List (List ℚ) → List Bool) (faces_len : ℕ)
    (embedding : List ℚ) (enrollments : List Enrollment)
    (get_user : ℕ → User) : Except Exc User :=
  if faces_len = 0 then Except.error Exc.NoFace
  else if 1 < faces_len then Except.error Exc.TooManyFaces
  else if enrollments.length = 0 then Except.error Exc.UnknownPerson
  else
    let embeddings := embedding :: enrollments.map Enrollment.embedding
    let similarities := (sim embeddings).drop 1
    match index_of_true similarities with
    | none => Except.error Exc.UnknownPerson
    | some index =>
      let user := get_user ((enrollments.getD index ⟨[], 0⟩).user_id)
      if user.is_activated = false then Except.error Exc.UserDisabled
      else Except.ok user

/-- `RekognizerHttpService._identify` proper: `identifyWith` applied to the
real similarity engine. -/
def identify_impl (faces_len : ℕ) (embedding : List ℚ)
    (enrollments : List Enrollment) (get_user : ℕ → User) : Except Exc User :=
  identifyWith get_similarities faces_len embedding enrollments get_user

/-! ## entrypoints.py -/

/-- `CorsHttpRequestHandler.mapped_errors`: the status/error-code table.
Note the source string for `TooManyFacesException` is `"TOO_MANY_FACE"`,
with no trailing `S`. -/
def mapped_errors (exc : Exc) : Option (ℕ × String) :=
  match exc with
  | Exc.BadRequest => some (400, "BAD_REQUEST")
  | Exc.ValidationError => some (400, "VALIDATION_ERROR")
  | Exc.NoFace => some (400, "NO_FACE")
  | Exc.TooManyFaces => some (400, "TOO_MANY_FACE")
  | Exc.UnknownPerson => some (400, "UNKNOWN_PERSON")
  | _ => none

/-- `CorsHttpRequestHandler.response_from_exception`: an exception declared
in the `expected_exceptions` of the endpoint gets its `mapped_errors` row, or
`(400, BAD_REQUEST)` when it has none; any other exception gets
`(500, UNEXPECTED_ERROR)`.  Only the status code and error code of the
response are modelled. -/
def response_from_exception (expected_exceptions : List Exc) (exc : Exc) :
    ℕ × String :=
  if exc ∈ expected_exceptions then
    match mapped_errors exc with
    | some sc => sc
    | none => (400, "BAD_REQUEST")
  else (500, "UNEXPECTED_ERROR")

/-- `expected_exceptions` of the `POST /verify` route. -/
def verify_expected : List Exc := [Exc.ValidationError, Exc.BadRequest]

/-- `expected_exceptions` of the `POST /identify` route. -/
def identify_expected : List Exc :=
  [Exc.ValidationError, Exc.BadRequest, Exc.NoFace, Exc.TooManyFaces,
   Exc.UnknownPerson, Exc.UserDisabled]

/-! ## Helper lemmas -/

/-- Unfolding `get_similarities` on a batch of at least two embeddings. -/
lemma get_similarities_cons (q e : List ℚ) (rest : List (List ℚ)) :
    get_similarities (q :: e :: rest) =
      true :: (e :: rest).map (fun emb => decide (distSq q emb < THRESHOLD ^ 2)) := by
  simp [get_similarities]

/-- The similarity result of a nonempty batch has one entry per batch
element. -/
lemma get_similarities_length (l : List (List ℚ)) (h : l ≠ []) :
    (get_similarities l).length = l.length := by
  cases l with
  | nil => exact absurd rfl h
  | cons a t =>
    cases t with
    | nil => rfl
    | cons b r => simp [get_similarities_cons]

lemma index_of_true_map_eq_none {α : Type} (p : α → Bool) (d : α) (l : List α)
    (h : ∀ j, j < l.length → p (l.getD j d) = false) :
    index_of_true (l.map p) = none := by
  induction l with
  | nil => rfl
  | cons x xs ih =>
    have hx : p x = false := by simpa using h 0 (by simp)
    have hrest : index_of_true (xs.map p) = none :=
      ih (fun j hj => by simpa using h (j + 1) (by simpa using Nat.succ_lt_succ hj))
    simp [index_of_true, hx, hrest]

lemma index_of_true_map_eq_some {α : Type} (p : α → Bool) (d : α) (l : List α)
    (i : ℕ) (h1 : i < l.length) (h2 : p (l.getD i d) = true)
    (h3 : ∀ j, j < i → p (l.getD j d) = false) :
    index_of_true (l.map p) = some i := by
  induction l generalizing i with
  | nil => simp at h1
  | cons x xs ih =>
    cases i with
    | zero =>
      have hx : p x = true := by simpa using h2
      simp [index_of_true, hx]
    | succ n =>
      have hx : p x = false := by simpa using h3 0 (Nat.succ_pos n)
      have hn : n < xs.length := by simpa using Nat.lt_of_succ_lt_succ h1
      have hpn : p (xs.getD n d) = true := by simpa using h2
      have hf : ∀ j, j < n → p (xs.getD j d) = false := fun j hj => by
        simpa using h3 (j + 1) (Nat.succ_lt_succ hj)
      simp [index_of_true, hx, ih n hn hpn hf]

/-- The batch built by `_identify` — query at index 0, then every enrollment
embedding in stored order — with the index-0 self-match popped, is exactly
the per-enrollment threshold test in stored order. -/
lemma drop_one_sim (q : List ℚ) (a : Enrollment) (rest : List Enrollment) :
    (get_similarities (q :: (a :: rest).map Enrollment.embedding)).drop 1
      = (a :: rest).map (fun en => decide (distSq q en.embedding < THRESHOLD ^ 2)) := by
  simp [get_similarities_cons, List.map_map, Function.comp]

/-- Characterization of `_identify` when the query matches the enrollment at
index `i` and no earlier one: the resolved user is exactly the user of
enrollment `i`, gated by its activation flag. -/
lemma identify_impl_first_match (q : List ℚ) (enrollments : List Enrollment)
    (gu : ℕ → User) (i : ℕ) (h1 : i < enrollments.length)
    (h2 : distSq q ((enrollments.getD i ⟨[], 0⟩).embedding) < THRESHOLD ^ 2)
    (h3 : ∀ j, j < i →
      ¬ distSq q ((enrollments.getD j ⟨[], 0⟩).embedding) < THRESHOLD ^ 2) :
    identify_impl 1 q enrollments gu =
      if (gu ((enrollments.getD i ⟨[], 0⟩).user_id)).is_activated = false
      then Except.error Exc.UserDisabled
      else Except.ok (gu ((enrollments.getD i ⟨[], 0⟩).user_id)) := by
  cases enrollments with
  | nil => simp at h1
  | cons a rest =>
    have hidx : index_of_true ((a :: rest).map
        (fun en => decide (distSq q en.embedding < THRESHOLD ^ 2))) = some i :=
      index_of_true_map_eq_some _ ⟨[], 0⟩ (a :: rest) i h1
        (by simpa using h2) (fun j hj => by simpa using h3 j hj)
    simp only [identify_impl, identifyWith, drop_one_sim, hidx, List.length_cons]
    simp

/-- Characterization of `_identify` when no enrollment is within threshold:
the outcome is `UnknownPerson` for every user-status collaborator. -/
lemma identify_impl_no_match (q : List ℚ) (enrollments : List Enrollment)
    (gu : ℕ → User)
    (h : ∀ j, j < enrollments.length →
      ¬ distSq q ((enrollments.getD j ⟨[], 0⟩).embedding) < THRESHOLD ^ 2) :
    identify_impl 1 q enrollments gu = Except.error Exc.UnknownPerson := by
  cases enrollments with
  | nil => rfl
  | cons a rest =>
    have hidx : index_of_true ((a :: rest).map
        (fun en => decide (distSq q en.embedding < THRESHOLD ^ 2))) = none :=
      index_of_true_map_eq_none _ ⟨[], 0⟩ (a :: rest)
        (fun j hj => by simpa using h j (by simpa using hj))
    simp only [identify_impl, identifyWith, drop_one_sim, hidx, List.length_cons]
    simp

/-! ## Claims -/

/-- C2: when some enrollment is within threshold of the query embedding,
`_identify` compares the batch `query :: enrollment embeddings in stored
order`, discards the index-0 self-match, and resolves the user of the first
(lowest-index) matching enrollment, never a later one.  `i` is the first
matching storage index; the result is exactly the outcome for the user of
enrollment `i`. -/
theorem identify_first_match_resolution (q : List ℚ)
    (enrollments : List Enrollment) (gu : ℕ → User) (i : ℕ)
    (h1 : i < enrollments.length)
    (h2 : distSq q ((enrollments.getD i ⟨[], 0⟩).embedding) < THRESHOLD ^ 2)
    (h3 : ∀ j, j < i →
      ¬ distSq q ((enrollments.getD j ⟨[], 0⟩).embedding) < THRESHOLD ^ 2) :
    identify_impl 1 q enrollments gu =
      if (gu ((enrollments.getD i ⟨[], 0⟩).user_id)).is_activated = false
      then Except.error Exc.UserDisabled
      else Except.ok (gu ((enrollments.getD i ⟨[], 0⟩).user_id)) :=
  identify_impl_first_match q enrollments gu i h1 h2 h3

/-- C2 witness: with enrollments `[⟨[9], 3⟩, ⟨[0], 5⟩]` and query `[0]`,
only the second enrollment matches, so user 5 is resolved. -/
theorem identify_first_match_resolution_witness :
    identify_impl 1 [0] [⟨[9], 3⟩, ⟨[0], 5⟩] (fun n => ⟨n, true⟩) =
      Except.ok ⟨5, true⟩ := by
  simpa using identify_first_match_resolution [0] [⟨[9], 3⟩, ⟨[0], 5⟩]
    (fun n => ⟨n, true⟩) 1 (by decide)
    (by norm_num [distSq, THRESHOLD, List.getD])
    (fun j hj => by
      have hj0 : j = 0 := by omega
      subst hj0
      norm_num [distSq, THRESHOLD, List.getD])

/-- C4: with exactly one detected face and zero enrollments, `_identify`
fails `UnknownPerson` for every similarity engine (so no comparison result
is ever consulted), every query embedding, and every user-status
collaborator. -/
theorem identify_zero_enrollments_unknown (sim : List (List ℚ) → List Bool)
    (q : List ℚ) (gu : ℕ → User) :
    identifyWith sim 1 q [] gu = Except.error Exc.UnknownPerson ∧
    identify_impl 1 q [] gu = Except.error Exc.UnknownPerson :=
  ⟨rfl, rfl⟩

/-- C5: when the user of the first matching enrollment has `is_activated = false`
the call fails `UserDisabled` even though the face matched; and when no
enrollment matches, the outcome is `UnknownPerson` for every user-status
collaborator, so the status check never happens before a match is found. -/
theorem identify_disabled_after_match (q : List ℚ)
    (enrollments : List Enrollment) :
    (∀ (gu : ℕ → User) (i : ℕ), i < enrollments.length →
      distSq q ((enrollments.getD i ⟨[], 0⟩).embedding) < THRESHOLD ^ 2 →
      (∀ j, j < i →
        ¬ distSq q ((enrollments.getD j ⟨[], 0⟩).embedding) < THRESHOLD ^ 2) →
      (gu ((enrollments.getD i ⟨[], 0⟩).user_id)).is_activated = false →
      identify_impl 1 q enrollments gu = Except.error Exc.UserDisabled)
    ∧ (∀ gu : ℕ → User,
      (∀ j, j < enrollments.length →
        ¬ distSq q ((enrollments.getD j ⟨[], 0⟩).embedding) < THRESHOLD ^ 2) →
      identify_impl 1 q enrollments gu = Except.error Exc.UnknownPerson) := by
  constructor
  · intro gu i h1 h2 h3 h4
    rw [identify_impl_first_match q enrollments gu i h1 h2 h3, if_pos h4]
  · intro gu h
    exact identify_impl_no_match q enrollments gu h

/-- C5 witness: a single enrollment that matches the query but whose user is
deactivated yields `UserDisabled`. -/
theorem identify_disabled_after_match_witness :
    identify_impl 1 [0] [⟨[0], 5⟩] (fun n => ⟨n, false⟩) =
      Except.error Exc.UserDisabled :=
  (identify_disabled_after_match [0] [⟨[0], 5⟩]).1 (fun n => ⟨n, false⟩) 0
    (by decide) (by norm_num [distSq, THRESHOLD, List.getD])
    (fun j hj => absurd hj (Nat.not_lt_zero j)) (by decide)

/-! ## Verification claims about `_verify` -/

lemma verifyPass1_fst (d : ℕ → ℕ) (e : ℕ → List ℚ) (urls : List ℕ) :
    (verifyPass1 d e urls).1.map VerifyEntry.image_url
      = urls.filter (fun u => !(d u == 1)) := by
  induction urls with
  | nil => rfl
  | cons u rest ih =>
    by_cases h0 : d u = 0
    · simp [verifyPass1, h0, ih]
    · by_cases h1 : 1 < d u
      · have hne : d u ≠ 1 := by omega
        simp [verifyPass1, h0, h1, hne, ih]
      · have he : d u = 1 := by omega
        simp [verifyPass1, h0, h1, he, ih]

lemma verifyPass1_snd (d : ℕ → ℕ) (e : ℕ → List ℚ) (urls : List ℕ) :
    (verifyPass1 d e urls).2.map Prod.fst = urls.filter (fun u => d u == 1) := by
  induction urls with
  | nil => rfl
  | cons u rest ih =>
    by_cases h0 : d u = 0
    · simp [verifyPass1, h0, ih]
    · by_cases h1 : 1 < d u
      · have hne : d u ≠ 1 := by omega
        simp [verifyPass1, h0, h1, hne, ih]
      · have he : d u = 1 := by omega
        simp [verifyPass1, h0, h1, he, ih]

/-- C1 counterexample: with a first URL showing one face and a second URL
showing none, `_verify` reports the second URL first — the rejection records
of the first loop all precede the similarity outcomes, so the result is not
in input order.  The claim as frozen is therefore false. -/
theorem verify_order_counterexample :
    (verify_impl (fun u => 1 - u) (fun _ => [0]) [0, 1]).map VerifyEntry.image_url
      ≠ [0, 1]
    ∧ verify_impl (fun u => 1 - u) (fun _ => [0]) [0, 1]
      = [⟨1, VerifyOutcome.noFace⟩, ⟨0, VerifyOutcome.valid⟩] := by
  have h : verify_impl (fun u => 1 - u) (fun _ => [0]) [0, 1]
      = [⟨1, VerifyOutcome.noFace⟩, ⟨0, VerifyOutcome.valid⟩] := by
    simp [verify_impl, verifyPass1, get_similarities]
  exact ⟨by rw [h]; simp, h⟩

/-- C1 (amended): `_verify` returns exactly one outcome per input URL, but in
two runs rather than input order — first the face-count rejections
(`NO_FACE` / `TOO_MANY_FACES`) in input order, then the similarity outcomes
(`valid` / `NOT_SAME_PERSON`) of the face-valid URLs in input order; every
outcome kind lies in the closed four-element set.  `d u` is the number of
faces detected at URL `u`. -/
theorem verify_one_outcome_per_url (d : ℕ → ℕ) (e : ℕ → List ℚ)
    (urls : List ℕ) :
    (verify_impl d e urls).map VerifyEntry.image_url
      = urls.filter (fun u => !(d u == 1)) ++ urls.filter (fun u => d u == 1)
    ∧ (verify_impl d e urls).all (fun en =>
        en.outcome == VerifyOutcome.valid || en.outcome == VerifyOutcome.noFace
        || en.outcome == VerifyOutcome.tooManyFaces
        || en.outcome == VerifyOutcome.notSamePerson) = true := by
  constructor
  · by_cases hv : 0 < (verifyPass1 d e urls).2.length
    · have hne : (verifyPass1 d e urls).2.map Prod.snd ≠ [] := by
        intro hc
        rw [List.map_eq_nil_iff] at hc
        rw [hc] at hv
        simp at hv
      have hlen : ((verifyPass1 d e urls).2).length ≤
          (get_similarities ((verifyPass1 d e urls).2.map Prod.snd)).length := by
        rw [get_similarities_length _ hne]
        simp
      simp only [verify_impl, if_pos hv, List.map_append, verifyPass1_fst]
      congr 1
      rw [List.map_map]
      have hcong : ∀ p ∈ ((verifyPass1 d e urls).2.zip
          (get_similarities ((verifyPass1 d e urls).2.map Prod.snd))),
          (VerifyEntry.image_url ∘ fun p : (ℕ × List ℚ) × Bool =>
            if p.2 then (⟨p.1.1, VerifyOutcome.valid⟩ : VerifyEntry)
            else ⟨p.1.1, VerifyOutcome.notSamePerson⟩) p
          = (Prod.fst ∘ Prod.fst) p := by
        intro p _
        cases hp : p.2 <;> simp [hp]
      rw [List.map_congr_left hcong]
      rw [show (Prod.fst ∘ Prod.fst : (ℕ × List ℚ) × Bool → ℕ)
          = Prod.fst ∘ (Prod.fst : (ℕ × List ℚ) × Bool → ℕ × List ℚ) from rfl]
      rw [← List.map_map, List.map_fst_zip _ _ hlen, verifyPass1_snd]
    · have h2 : (verifyPass1 d e urls).2 = [] := by
        cases hc : (verifyPass1 d e urls).2 with
        | nil => rfl
        | cons x xs => rw [hc] at hv; simp at hv
      have hB : urls.filter (fun u => d u == 1) = [] := by
        rw [← verifyPass1_snd d e urls, h2]
        rfl
      simp [verify_impl, hv, verifyPass1_fst, hB]
  · rw [List.all_eq_true]
    intro en _
    cases h : en.outcome <;> simp [h]

/-! ## Verification claims about `get_similarities` -/

/-- C3 counterexample: on the empty batch the source still returns `[True]`
(the initial accumulator), a list of length 1, not 0 — so the claim as
frozen fails for the empty batch. -/
theorem get_similarities_empty_counterexample :
    (get_similarities []).length ≠ ([] : List (List ℚ)).length := by
  simp [get_similarities]

/-- C3 (amended): for every NON-EMPTY batch, `get_similarities` returns one
boolean per batch element; the index-0 entry is `true` by construction (no
distance enters it); for `i ≥ 1`, entry `i` is `true` exactly when the
Euclidean distance between embedding `i` and the reference embedding at
index 0 is strictly below `0.8`; and a one-element batch yields `[true]`. -/
theorem get_similarities_spec (embeddings : List (List ℚ))
    (h : embeddings ≠ []) :
    (get_similarities embeddings).length = embeddings.length
    ∧ (get_similarities embeddings).getD 0 false = true
    ∧ (∀ i, i + 1 < embeddings.length →
        ((get_similarities embeddings).getD (i + 1) false = true ↔
          Real.sqrt ((distSq (embeddings.getD 0 [])
            (embeddings.getD (i + 1) []) : ℚ) : ℝ) < (0.8 : ℝ)))
    ∧ (embeddings.length = 1 → get_similarities embeddings = [true]) := by
  refine ⟨get_similarities_length embeddings h, ?_, ?_, ?_⟩
  · cases embeddings with
    | nil => exact absurd rfl h
    | cons a t => simp [get_similarities]
  · intro i hi
    cases embeddings with
    | nil => simp at hi
    | cons a t =>
      cases t with
      | nil => simp at hi
      | cons b r =>
        rw [get_similarities_cons]
        have hi2 : i < (b :: r).length := by
          simpa using Nat.lt_of_succ_lt_succ hi
        have hmap : ((b :: r).map
            (fun emb => decide (distSq a emb < THRESHOLD ^ 2))).getD i false
            = decide (distSq a ((b :: r).getD i []) < THRESHOLD ^ 2) := by
          rw [List.getD_eq_getElem?_getD, List.getD_eq_getElem?_getD,
            List.getElem?_map, List.getElem?_eq_getElem hi2]
          simp
        rw [List.getD_cons_succ, hmap, decide_eq_true_eq, List.getD_cons_zero,
          List.getD_cons_succ, Real.sqrt_lt' (by norm_num : (0 : ℝ) < 0.8),
          show ((0.8 : ℝ) ^ 2) = ((THRESHOLD ^ 2 : ℚ) : ℝ) by
            norm_num [THRESHOLD],
          Rat.cast_lt]
  · intro hlen
    cases embeddings with
    | nil => simp at hlen
    | cons a t =>
      cases t with
      | nil => rfl
      | cons b r => simp at hlen

/-- C3 witness: on the two-element batch `[[0], [1]]` the result has length
2 and its index-1 entry reports the threshold test against the reference. -/
theorem get_similarities_spec_witness :
    (get_similarities [[0], [1]]).length = 2
    ∧ ((get_similarities [[0], [1]]).getD 1 false = true ↔
        Real.sqrt ((distSq (([[0], [1]] : List (List ℚ)).getD 0 [])
          (([[0], [1]] : List (List ℚ)).getD 1 []) : ℚ) : ℝ) < (0.8 : ℝ)) :=
  ⟨(get_similarities_spec [[0], [1]] (by simp)).1,
   (get_similarities_spec [[0], [1]] (by simp)).2.2.1 0 (by simp)⟩

/-! ## Verification claims about `enroll_user` -/

/-- C6 counterexample: enrolling two URLs where the first succeeds and the
second shows no face raises `NoFace` — but the enrollment row of the first
URL has already been committed, so the call does leave a persisted row
behind, contradicting the no-partial-success reading of the claim. -/
theorem enroll_partial_persistence_counterexample :
    enroll_user 7 (fun u => 1 - u) (fun _ => [0]) [0, 1] []
      = (Except.error Exc.NoFace, [⟨[0], 7⟩])
    ∧ (enroll_user 7 (fun u => 1 - u) (fun _ => [0]) [0, 1] []).2 ≠ [] := by
  have h : enroll_user 7 (fun u => 1 - u) (fun _ => [0]) [0, 1] []
      = (Except.error Exc.NoFace, [⟨[0], 7⟩]) := by
    simp [enroll_user, enroll_go]
  exact ⟨h, by rw [h]; simp⟩

/-- C6 (amended): `enroll_user` processes URLs sequentially; the first URL
whose face count is not exactly one raises immediately (`NoFace` on zero
faces, `TooManyFaces` otherwise), aborting the remaining URLs — but each URL
processed successfully before the failure has already persisted its one
enrollment row, so the failing call keeps those rows (partial persistence,
not rollback). -/
theorem enroll_fail_fast (user_id : ℕ) (detect : ℕ → ℕ) (embed : ℕ → List ℚ)
    (good : List ℕ) (bad : ℕ) (rest : List ℕ) (db : List Enrollment)
    (hgood : ∀ u ∈ good, detect u = 1) (hbad : detect bad ≠ 1) :
    enroll_user user_id detect embed (good ++ bad :: rest) db
      = (Except.error (if detect bad = 0 then Exc.NoFace else Exc.TooManyFaces),
         db ++ good.map (fun u => ⟨embed u, user_id⟩)) := by
  suffices hmain : ∀ (gs : List ℕ), (∀ u ∈ gs, detect u = 1) →
      ∀ db2 : List Enrollment,
        enroll_go user_id detect embed (gs ++ bad :: rest) db2
          = (Except.error (if detect bad = 0 then Exc.NoFace else Exc.TooManyFaces),
             db2 ++ gs.map (fun u => ⟨embed u, user_id⟩)) by
    exact hmain good hgood db
  intro gs
  induction gs with
  | nil =>
    intro _ db2
    by_cases h0 : detect bad = 0
    · simp [enroll_go, h0]
    · have h1 : 1 < detect bad := by omega
      simp [enroll_go, h0, h1]
  | cons g gl ih =>
    intro hg db2
    have hg1 : detect g = 1 := hg g (by simp)
    have hstep : enroll_go user_id detect embed ((g :: gl) ++ bad :: rest) db2
        = enroll_go user_id detect embed (gl ++ bad :: rest)
            (db2 ++ [⟨embed g, user_id⟩]) := by
      simp only [List.cons_append, enroll_go]
      rw [if_neg (by omega), if_neg (by omega)]
      rfl
    have ihg := ih (fun u hu => hg u (by simp [hu]))
      (db2 ++ [(⟨embed g, user_id⟩ : Enrollment)])
    rw [hstep, ihg]
    simp

/-- C6 witness: two good URLs, then a no-face URL, then one more URL; the
call fails `NoFace` with exactly the two earlier rows persisted and the
trailing URL never processed. -/
theorem enroll_fail_fast_witness :
    enroll_user 7 (fun u => if u = 2 then 0 else 1) (fun _ => [5]) [0, 1, 2, 3] []
      = (Except.error Exc.NoFace, [⟨[5], 7⟩, ⟨[5], 7⟩]) :=
  enroll_fail_fast 7 (fun u => if u = 2 then 0 else 1) (fun _ => [5])
    [0, 1] 2 [3] [] (by decide) (by decide)

/-! ## Verification claims about `response_from_exception` -/

/-- C7: evaluating the handler at a `TooManyFacesException` declared
expected (as on `POST /identify`) yields status 400 with error code
`TOO_MANY_FACE` — not the `TOO_MANY_FACES` the spec names (and which
`_verify` itself uses for its per-image outcome records): the mapping table
in `entrypoints.py` drops the final `S`. -/
theorem response_too_many_faces_code :
    response_from_exception identify_expected Exc.TooManyFaces
      = (400, "TOO_MANY_FACE")
    ∧ (400, "TOO_MANY_FACE") ≠ ((400 : ℕ), "TOO_MANY_FACES") := by
  constructor
  · rfl
  · decide

/-! ## Verification claims about `normalize_image` and `resize_image` -/

/-- C8: `normalize_image` preserves length; every output element is
`(pixel - mean) / std_adjusted`, where `mean` is the scalar mean over all
elements, and `std_adjusted` clamps the standard deviation (root of the mean
squared deviation) from below by `1 / sqrt(element count)`; and the function
is deterministic (it is pure — equal inputs give equal outputs). -/
theorem normalize_image_spec (image : List ℚ) (h : 0 < image.length) :
    (normalize_image image).length = image.length
    ∧ (∀ i, i < image.length →
        (normalize_image image).getD i 0
          = (((image.getD i 0 : ℚ) : ℝ)
              - ((image.sum / (image.length : ℚ) : ℚ) : ℝ))
            / max (Real.sqrt (((image.map
                  (fun x => (x - image.sum / (image.length : ℚ)) ^ 2)).sum
                    / (image.length : ℚ) : ℚ) : ℝ))
                (1 / Real.sqrt (image.length : ℝ)))
    ∧ normalize_image image = normalize_image image := by
  refine ⟨by simp [normalize_image], ?_, rfl⟩
  intro i hi
  rw [normalize_image, List.getD_eq_getElem?_getD, List.getElem?_map,
    List.getElem?_eq_getElem hi]
  rw [show image.getD i 0 = image[i] from by
    rw [List.getD_eq_getElem?_getD, List.getElem?_eq_getElem hi]; rfl]
  simp [np_mean, np_var, np_std, std_adj, mul_one_div, div_eq_mul_inv]

/-- C8 witness: the elementwise formula evaluated at index 0 of the
two-element image `[1, 3]`. -/
theorem normalize_image_spec_witness :
    0 < ([1, 3] : List ℚ).length
    ∧ (normalize_image [1, 3]).getD 0 0
      = (((([1, 3] : List ℚ).getD 0 0 : ℚ) : ℝ)
          - ((([1, 3] : List ℚ).sum / (([1, 3] : List ℚ).length : ℚ) : ℚ) : ℝ))
        / max (Real.sqrt (((([1, 3] : List ℚ).map
              (fun x => (x - ([1, 3] : List ℚ).sum / (([1, 3] : List ℚ).length : ℚ)) ^ 2)).sum
              / (([1, 3] : List ℚ).length : ℚ) : ℚ) : ℝ))
            (1 / Real.sqrt (([1, 3] : List ℚ).length : ℝ)) :=
  ⟨by decide, (normalize_image_spec [1, 3] (by decide)).2.1 0 (by decide)⟩

/-- Exact floor arithmetic behind the aspect-ratio computation:
`int(a * (b / c))` over exact nonnegative quotients is natural division. -/
lemma floor_mul_div (a b c : ℕ) :
    Int.toNat ⌊(a : ℚ) * ((b : ℚ) / (c : ℚ))⌋ = a * b / c := by
  rw [Int.floor_toNat, mul_div_assoc',
    show (a : ℚ) * (b : ℚ) = ((a * b : ℕ) : ℚ) by push_cast; ring,
    Nat.floor_div_nat, Nat.floor_natCast]

/-- C9: `resize_image` with neither target is the identity (for every
resize collaborator); when the collaborator honours the requested target
dimensions, supplying only the width gives output height
`int(h * width / w)` and supplying only the height gives output width
`int(w * height / h)`, both from the original aspect ratio. -/
theorem resize_image_spec (cvResize : Img → ℕ × ℕ → Img) (image : Img) :
    resize_image cvResize image none none = image
    ∧ ((∀ im d, (cvResize im d).width = d.1 ∧ (cvResize im d).height = d.2) →
      (∀ wd : ℕ, 0 < image.width →
        (resize_image cvResize image (some wd) none).width = wd
        ∧ (resize_image cvResize image (some wd) none).height
            = image.height * wd / image.width)
      ∧ (∀ ht : ℕ, 0 < image.height →
        (resize_image cvResize image none (some ht)).height = ht
        ∧ (resize_image cvResize image none (some ht)).width
            = image.width * ht / image.height)) := by
  refine ⟨rfl, fun hcv => ⟨fun wd hw => ⟨?_, ?_⟩, fun ht hh => ⟨?_, ?_⟩⟩⟩
  · exact (hcv image _).1
  · rw [show (resize_image cvResize image (some wd) none).height
        = Int.toNat ⌊(image.height : ℚ) * ((wd : ℚ) / (image.width : ℚ))⌋
      from (hcv image _).2]
    exact floor_mul_div image.height wd image.width
  · exact (hcv image _).2
  · rw [show (resize_image cvResize image none (some ht)).width
        = Int.toNat ⌊(image.width : ℚ) * ((ht : ℚ) / (image.height : ℚ))⌋
      from (hcv image _).1]
    exact floor_mul_div image.width ht image.height

/-- C9 witness: a 4×6 raster resized to width 3 gets height
`4 * 3 / 6 = 2`; with no targets the raster is unchanged. -/
theorem resize_image_spec_witness :
    resize_image (fun _ d => ⟨d.2, d.1⟩) ⟨4, 6⟩ none none = ⟨4, 6⟩
    ∧ (resize_image (fun _ d => ⟨d.2, d.1⟩) ⟨4, 6⟩ (some 3) none).width = 3
    ∧ (resize_image (fun _ d => ⟨d.2, d.1⟩) ⟨4, 6⟩ (some 3) none).height = 2 :=
  ⟨(resize_image_spec (fun _ d => ⟨d.2, d.1⟩) ⟨4, 6⟩).1,
   (((resize_image_spec (fun _ d => ⟨d.2, d.1⟩) ⟨4, 6⟩).2
      (fun im d => ⟨rfl, rfl⟩)).1 3 (by decide)).1,
   (((resize_image_spec (fun _ d => ⟨d.2, d.1⟩) ⟨4, 6⟩).2
      (fun im d => ⟨rfl, rfl⟩)).1 3 (by decide)).2⟩

/-- C10: on a nonempty image the divisor `std_adj` used by
`normalize_image` is strictly positive — the clamp
`max std (1 / sqrt(element count))` is at least the positive floor even when
the standard deviation is 0 — so the elementwise division never divides by
zero. -/
theorem std_adj_positive (image : List ℚ) (h : 0 < image.length) :
    0 < std_adj image ∧ std_adj image ≠ 0 := by
  have h1 : (0 : ℝ) < Real.sqrt (image.length : ℝ) :=
    Real.sqrt_pos.mpr (by exact_mod_cast h)
  have h2 : (0 : ℝ) < 1 / Real.sqrt (image.length : ℝ) := by positivity
  have h3 : (0 : ℝ) < std_adj image := lt_of_lt_of_le h2 (le_max_right _ _)
  exact ⟨h3, ne_of_gt h3⟩

/-- C10 witness: the perfectly constant image `[5, 5, 5, 5]`, whose standard
deviation is 0, still has a strictly positive divisor. -/
theorem std_adj_positive_witness :
    0 < ([5, 5, 5, 5] : List ℚ).length
    ∧ (0 < std_adj [5, 5, 5, 5] ∧ std_adj [5, 5, 5, 5] ≠ 0) :=
  ⟨by decide, std_adj_positive [5, 5, 5, 5] (by decide)⟩
